import Mathlib

/-!
Verification of the WikiWeave editor core (`packages/core/src`): the
`CursorManager` selection/transform operations and the wiki-link notation.

The buffer of a textarea is modelled as a `List Char`; a textarea is its
buffer plus the selection offsets.  JavaScript's `String.prototype.substring`
is modelled with its clamp-and-swap semantics.  Operations that can throw
return `Except`; for the stateful operations the error carries the textarea
state observable at the moment of the throw, so that atomicity ("no partial
mutation on error") is a real statement about the model.
-/

namespace WikiWeave

/-- JavaScript `String.prototype.substring(a, b)`: both indices are clamped to
`[0, length]` and swapped when out of order. -/
def jsSubstring (v : List Char) (a b : Nat) : List Char :=
  let a' := min a v.length
  let b' := min b v.length
  (v.take (max a' b')).drop (min a' b')

/-- JavaScript `String.prototype.substring(a)`: one-argument form, runs to the
end of the string. -/
def jsSubstringFrom (v : List Char) (a : Nat) : List Char :=
  jsSubstring v a v.length

/-- The model of an `HTMLTextAreaElement` as `CursorManager` sees it: the text
content (`value`) and the selection offsets. -/
structure Textarea where
  value : List Char
  selectionStart : Nat
  selectionEnd : Nat
deriving Repr, DecidableEq

/-- The DOM invariant of a live textarea, which the browser maintains:
`selectionStart ≤ selectionEnd ≤ value.length`. -/
def Textarea.Valid (t : Textarea) : Prop :=
  t.selectionStart ≤ t.selectionEnd ∧ t.selectionEnd ≤ t.value.length

instance (t : Textarea) : Decidable t.Valid := by
  unfold Textarea.Valid; infer_instance

/-- `CursorSelection` from the types module: start/end offsets, the selected
text, and whether anything is selected. -/
structure CursorSelection where
  start : Nat
  «end» : Nat
  hasSelection : Bool
  text : List Char
deriving Repr, DecidableEq

/-- `TextInsertionResult` from the types module: the selection reported after
an insertion or wrap, and whether the content was modified. -/
structure TextInsertionResult where
  newStart : Nat
  newEnd : Nat
  modified : Bool
deriving Repr, DecidableEq

/-- `CursorManager.getSelection`: reads the selection range off the textarea,
extracts the selected text with `value.substring(start, end)`, and reports
`hasSelection = (start !== end)`. -/
def getSelection (t : Textarea) : CursorSelection :=
  { start := t.selectionStart
    «end» := t.selectionEnd
    hasSelection := t.selectionStart != t.selectionEnd
    text := jsSubstring t.value t.selectionStart t.selectionEnd }

/-- `CursorManager.setSelection` over JavaScript numbers, modelled on `ℚ`
(every value the source actually compares is an exact small number, for which
IEEE-754 comparison agrees with the rational order).  Returns the pair handed
to `textarea.setSelectionRange`; every throw happens before that call.  The
checks are transcribed in source order: `start < 0`, `start > value.length`,
then with `endPos = end ?? start`: `endPos < 0`, `endPos < start`,
`endPos > value.length`. -/
def setSelectionNum (len : Nat) (start : ℚ) (endOpt : Option ℚ) :
    Except String (ℚ × ℚ) :=
  if start < 0 then
    .error "CursorManager.setSelection: start must be a non-negative number"
  else if start > (len : ℚ) then
    .error "CursorManager.setSelection: start position exceeds textarea length"
  else
    let endPos := endOpt.getD start
    if endPos < 0 then
      .error "CursorManager.setSelection: end must be a non-negative number"
    else if endPos < start then
      .error "CursorManager.setSelection: end must be greater than or equal to start"
    else if endPos > (len : ℚ) then
      .error "CursorManager.setSelection: end position exceeds textarea length"
    else
      .ok (start, endPos)

/-- `CursorManager.setSelection` at the integral offsets its internal callers
(`insertText`, `wrapSelection`) pass.  Same checks in the same order as
`setSelectionNum` (the `< 0` guards are vacuous on `Nat` but kept from the
source); on success the range is committed to the textarea.  All throws
precede the `setSelectionRange` call, so an error leaves no mutation. -/
def setSelection (t : Textarea) (start : Nat) (endOpt : Option Nat) :
    Except String Textarea :=
  if start < 0 then
    .error "CursorManager.setSelection: start must be a non-negative number"
  else if start > t.value.length then
    .error "CursorManager.setSelection: start position exceeds textarea length"
  else
    let endPos := endOpt.getD start
    if endPos < 0 then
      .error "CursorManager.setSelection: end must be a non-negative number"
    else if endPos < start then
      .error "CursorManager.setSelection: end must be greater than or equal to start"
    else if endPos > t.value.length then
      .error "CursorManager.setSelection: end position exceeds textarea length"
    else
      .ok { t with selectionStart := start, selectionEnd := endPos }

/-- The common epilogue of `insertText` and `wrapSelection` in the source:
`this.setSelection(textarea, newStart, newEnd); return { newStart, newEnd,
modified: true }`.  A throw from `setSelection` propagates with the (already
mutated) textarea state `t1` observable. -/
def runCommit (t1 : Textarea) (newStart newEnd : Nat) :
    Except (String × Textarea) (Textarea × TextInsertionResult) :=
  match setSelection t1 newStart (some newEnd) with
  | .error e => .error (e, t1)
  | .ok t2 => .ok (t2, { newStart := newStart, newEnd := newEnd, modified := true })

/-- `CursorManager.insertText`: a null/undefined `text` argument is modelled as
`none` and throws before any mutation.  Otherwise the selected span is replaced
(`value.substring(0, start) + text + value.substring(end)`), the value is
assigned, and `setSelection` is called with the new range (select the inserted
text when `selectInserted`, else a collapsed caret after it).  On a throw the
error carries the textarea state at that point. -/
def insertText (t : Textarea) (textOpt : Option (List Char)) (selectInserted : Bool) :
    Except (String × Textarea) (Textarea × TextInsertionResult) :=
  match textOpt with
  | none => .error ("CursorManager.insertText: text is required", t)
  | some text =>
    let start := t.selectionStart
    let before := jsSubstring t.value 0 start
    let after := jsSubstringFrom t.value t.selectionEnd
    let newValue := before ++ text ++ after
    let t1 : Textarea := { t with value := newValue }
    let newStart := if selectInserted then start else start + text.length
    let newEnd := start + text.length
    runCommit t1 newStart newEnd

/-- `CursorManager.replaceSelection`: delegates to `insertText` with
`selectInserted = false`. -/
def replaceSelection (t : Textarea) (replacement : Option (List Char)) :
    Except (String × Textarea) (Textarea × TextInsertionResult) :=
  insertText t replacement false

/-- `CursorManager.wrapSelection`: null/undefined prefix or suffix throws
before any mutation.  Otherwise the selection is read, the wrapped text
`prefix + selection.text + suffix` replaces the selected span, and the new
range is: a collapsed caret between the wrapper parts when nothing was
selected; the original text inside the wrapper when `selectWrapped`; else a
collapsed caret after the whole wrapped span.  On a throw the error carries
the textarea state at that point. -/
def wrapSelection (t : Textarea) (preOpt sufOpt : Option (List Char)) (selectWrapped : Bool) :
    Except (String × Textarea) (Textarea × TextInsertionResult) :=
  match preOpt with
  | none => .error ("CursorManager.wrapSelection: prefix is required", t)
  | some pre =>
    match sufOpt with
    | none => .error ("CursorManager.wrapSelection: suffix is required", t)
    | some suf =>
      let sel := getSelection t
      let originalStart := sel.start
      let wrappedText := pre ++ sel.text ++ suf
      let before := jsSubstring t.value 0 originalStart
      let after := jsSubstringFrom t.value sel.«end»
      let t1 : Textarea := { t with value := before ++ wrappedText ++ after }
      let newStart : Nat :=
        if !sel.hasSelection then originalStart + pre.length
        else if selectWrapped then originalStart + pre.length
        else originalStart + wrappedText.length
      let newEnd : Nat :=
        if !sel.hasSelection then originalStart + pre.length
        else if selectWrapped then originalStart + pre.length + sel.text.length
        else originalStart + wrappedText.length
      runCommit t1 newStart newEnd

/-- Removing `n` characters of a buffer starting at offset `i` (the caller-side
deletion used to state the wrap round-trip property). -/
def deleteRange (v : List Char) (i n : Nat) : List Char :=
  v.take i ++ v.drop (i + n)

/-! ### Wiki-link notation

The wiki-link plugin itself is not implemented in the sources (the `Parser`
class carries only TODO stubs for it); the structured result type
`WikiLinkData` and its documented invariants are.  The codec below is
therefore modelled from the specification of the notation. -/

/-- `WikiLinkData` from the types module: target, display (defaulting to the
target), optional section, and the raw matched span including brackets. -/
structure WikiLinkData where
  target : List Char
  display : List Char
  «section» : Option (List Char)
  raw : List Char
deriving Repr, DecidableEq

/-- Splits a list at the first occurrence of `c`, dropping that occurrence;
`none` when `c` does not occur. -/
def splitAtFirst (c : Char) : List Char → Option (List Char × List Char)
  | [] => none
  | x :: xs =>
    if x = c then some ([], xs)
    else (splitAtFirst c xs).map fun p => (x :: p.1, p.2)

/-- Modelled from the spec: the per-span parsing rule of the wiki-link codec,
which is unimplemented in the sources.  The content between the brackets is
split at the first literal `|` (absent → no explicit display segment); the
section is everything after the first `#` of whichever segment is textually
last (the display segment when a `|` is present, else the whole content), and
an empty display falls back to the target. -/
def parseInner (inner raw : List Char) : WikiLinkData :=
  match splitAtFirst '|' inner with
  | none =>
    match splitAtFirst '#' inner with
    | none => { target := inner, display := inner, «section» := none, raw := raw }
    | some (tgt, sec) => { target := tgt, display := tgt, «section» := some sec, raw := raw }
  | some (tgt, dispSeg) =>
    match splitAtFirst '#' dispSeg with
    | none =>
      { target := tgt, display := if dispSeg.isEmpty then tgt else dispSeg,
        «section» := none, raw := raw }
    | some (d, sec) =>
      { target := tgt, display := if d.isEmpty then tgt else d,
        «section» := some sec, raw := raw }

/-- Finds the first `]]`; returns the characters before it and the remainder
after it. -/
def findClose : List Char → Option (List Char × List Char)
  | [] => none
  | ']' :: ']' :: rest => some ([], rest)
  | c :: rest => (findClose rest).map fun p => (c :: p.1, p.2)

/-- Modelled from the spec: the left-to-right scan for well-formed `[[...]]`
spans (a `]]` closes the nearest unmatched `[[`).  `fuel` bounds the number of
steps; each step consumes at least one character, so `text.length` suffices.
`i` is the absolute offset of the head of the remaining text; each match is
reported with its span `[matchStart, matchEnd)`. -/
def wikiParseAux : Nat → List Char → Nat → List (WikiLinkData × Nat × Nat)
  | 0, _, _ => []
  | _ + 1, [], _ => []
  | fuel + 1, '[' :: '[' :: rest, i =>
    match findClose rest with
    | some (inner, after) =>
      let raw := '[' :: '[' :: (inner ++ [']', ']'])
      let matchEnd := i + inner.length + 4
      (parseInner inner raw, i, matchEnd) :: wikiParseAux fuel after matchEnd
    | none => []
  | fuel + 1, _ :: rest, i => wikiParseAux fuel rest (i + 1)

/-- Modelled from the spec: `parse(text)` — every well-formed `[[...]]` span of
`text`, left to right, non-overlapping, with its structured data and span. -/
def wikiParse (text : List Char) : List (WikiLinkData × Nat × Nat) :=
  wikiParseAux text.length text 0

instance {ε α : Type} [DecidableEq ε] [DecidableEq α] : DecidableEq (Except ε α) :=
  fun a b =>
    match a, b with
    | .ok a, .ok b =>
      if h : a = b then isTrue (by rw [h]) else isFalse (by intro hh; cases hh; exact h rfl)
    | .error a, .error b =>
      if h : a = b then isTrue (by rw [h]) else isFalse (by intro hh; cases hh; exact h rfl)
    | .ok _, .error _ => isFalse (fun hh => Except.noConfusion hh)
    | .error _, .ok _ => isFalse (fun hh => Except.noConfusion hh)

/-! ### Basic lemmas about the substring model -/

theorem jsSubstring_eq_of_le (v : List Char) (a b : Nat) (hab : a ≤ b)
    (hb : b ≤ v.length) : jsSubstring v a b = (v.take b).drop a := by
  unfold jsSubstring
  simp only [Nat.min_eq_left (le_trans hab hb), Nat.min_eq_left hb,
    Nat.max_eq_right hab, Nat.min_eq_left hab]

theorem jsSubstring_zero (v : List Char) (a : Nat) (ha : a ≤ v.length) :
    jsSubstring v 0 a = v.take a := by
  rw [jsSubstring_eq_of_le v 0 a (Nat.zero_le a) ha, List.drop_zero]

theorem jsSubstringFrom_eq (v : List Char) (a : Nat) (ha : a ≤ v.length) :
    jsSubstringFrom v a = v.drop a := by
  rw [jsSubstringFrom, jsSubstring_eq_of_le v a v.length ha (le_refl _), List.take_length]

/-- The selected span glued back between the outer parts recovers the buffer. -/
theorem take_mid_drop (v : List Char) (s e : Nat) (hse : s ≤ e) :
    v.take s ++ (v.take e).drop s ++ v.drop e = v := by
  have h1 : (v.take e).take s = v.take s := by
    rw [List.take_take, Nat.min_eq_left hse]
  calc v.take s ++ (v.take e).drop s ++ v.drop e
      = ((v.take e).take s ++ (v.take e).drop s) ++ v.drop e := by rw [h1, List.append_assoc]
    _ = v.take e ++ v.drop e := by rw [List.take_append_drop]
    _ = v := List.take_append_drop e v

/-! ### Behaviour of `setSelection` on in-range integral offsets -/

theorem setSelection_ok (t : Textarea) (s e : Nat) (hse : s ≤ e)
    (hel : e ≤ t.value.length) :
    setSelection t s (some e) = .ok { t with selectionStart := s, selectionEnd := e } := by
  unfold setSelection
  have h1 : ¬ s > t.value.length := by omega
  have h2 : ¬ e < s := by omega
  have h3 : ¬ e > t.value.length := by omega
  simp [h1, h2, h3]

/-- `setSelection` never changes the buffer content: on success only the
selection offsets move (all throws precede the single `setSelectionRange`
call, so an error changes nothing at all). -/
theorem setSelection_value_eq (t : Textarea) (s : Nat) (eOpt : Option Nat)
    (t' : Textarea) (h : setSelection t s eOpt = .ok t') : t'.value = t.value := by
  simp only [setSelection] at h
  split at h
  · exact Except.noConfusion h
  · split at h
    · exact Except.noConfusion h
    · split at h
      · exact Except.noConfusion h
      · split at h
        · exact Except.noConfusion h
        · split at h
          · exact Except.noConfusion h
          · cases h; rfl

/-- The successful run of the shared commit epilogue. -/
theorem runCommit_ok (t1 : Textarea) (ns ne : Nat) (hse : ns ≤ ne)
    (hel : ne ≤ t1.value.length) :
    runCommit t1 ns ne =
      .ok ({ t1 with selectionStart := ns, selectionEnd := ne },
           { newStart := ns, newEnd := ne, modified := true }) := by
  unfold runCommit
  rw [setSelection_ok t1 ns ne hse hel]

/-! ### The successful runs of `insertText` and `wrapSelection`, in closed form -/

theorem insertText_ok_eq (t : Textarea) (txt : List Char) (si : Bool) (h : t.Valid) :
    insertText t (some txt) si =
      .ok ({ value := t.value.take t.selectionStart ++ txt ++ t.value.drop t.selectionEnd,
             selectionStart := if si then t.selectionStart else t.selectionStart + txt.length,
             selectionEnd := t.selectionStart + txt.length },
           { newStart := if si then t.selectionStart else t.selectionStart + txt.length,
             newEnd := t.selectionStart + txt.length,
             modified := true }) := by
  obtain ⟨hse, hel⟩ := h
  have hs_len : t.selectionStart ≤ t.value.length := le_trans hse hel
  have hbefore := jsSubstring_zero t.value t.selectionStart hs_len
  have hafter := jsSubstringFrom_eq t.value t.selectionEnd hel
  have hlen : (t.value.take t.selectionStart ++ txt ++ t.value.drop t.selectionEnd).length
      = t.selectionStart + txt.length + (t.value.length - t.selectionEnd) := by
    simp [List.length_append, Nat.min_eq_left hs_len]; omega
  simp only [insertText, hbefore, hafter]
  rw [runCommit_ok _ _ _ (by cases si <;> simp) (by rw [hlen]; omega)]

theorem wrapSelection_ok_eq (t : Textarea) (pre suf : List Char) (sw : Bool) (h : t.Valid) :
    wrapSelection t (some pre) (some suf) sw =
      (let selText := (t.value.take t.selectionEnd).drop t.selectionStart
       let ns : Nat :=
         if t.selectionStart = t.selectionEnd then t.selectionStart + pre.length
         else if sw then t.selectionStart + pre.length
         else t.selectionStart + (pre ++ selText ++ suf).length
       let ne : Nat :=
         if t.selectionStart = t.selectionEnd then t.selectionStart + pre.length
         else if sw then t.selectionStart + pre.length + selText.length
         else t.selectionStart + (pre ++ selText ++ suf).length
       .ok ({ value := t.value.take t.selectionStart ++ pre ++ selText ++ suf
                        ++ t.value.drop t.selectionEnd,
              selectionStart := ns, selectionEnd := ne },
            { newStart := ns, newEnd := ne, modified := true })) := by
  obtain ⟨hse, hel⟩ := h
  have hs_len : t.selectionStart ≤ t.value.length := le_trans hse hel
  have hbefore := jsSubstring_zero t.value t.selectionStart hs_len
  have hafter := jsSubstringFrom_eq t.value t.selectionEnd hel
  have htext := jsSubstring_eq_of_le t.value t.selectionStart t.selectionEnd hse hel
  have hmlen : ((t.value.take t.selectionEnd).drop t.selectionStart).length
      = t.selectionEnd - t.selectionStart := by
    simp [List.length_drop, List.length_take, Nat.min_eq_left hel]
  have hlen : ((t.value.take t.selectionStart ++ (pre ++ (t.value.take t.selectionEnd).drop t.selectionStart ++ suf) ++ t.value.drop t.selectionEnd).length : Nat)
      = t.selectionStart + (pre.length + (t.selectionEnd - t.selectionStart) + suf.length)
          + (t.value.length - t.selectionEnd) := by
    simp [List.length_append, Nat.min_eq_left hs_len, hmlen]; omega
  simp only [wrapSelection, getSelection, hbefore, hafter, htext]
  by_cases hsel : t.selectionStart = t.selectionEnd
  · have hb : (t.selectionStart != t.selectionEnd) = false := by simp [hsel]
    simp only [hb, Bool.not_false, if_true, if_pos hsel]
    rw [runCommit_ok _ _ _ (le_refl _) (by rw [hlen]; omega)]
    simp [List.append_assoc]
  · have hb : (t.selectionStart != t.selectionEnd) = true := by simp [hsel]
    simp only [hb, Bool.not_true, Bool.false_eq_true, if_false, if_neg hsel]
    cases sw
    · simp only [Bool.false_eq_true, if_false]
      rw [runCommit_ok _ _ _ (le_refl _)
        (by simp only [List.length_append, List.length_take, List.length_drop, hmlen,
              Nat.min_eq_left hs_len]; omega)]
      simp [List.append_assoc, hmlen]
    · simp only [if_true]
      rw [runCommit_ok _ _ _ (by omega)
        (by simp only [List.length_append, List.length_take, List.length_drop, hmlen,
              Nat.min_eq_left hs_len]; omega)]
      simp [List.append_assoc, hmlen]

/-- With `selectWrapped = true` the successful run collapses to one closed
form: the reported selection always spans the original text inside the
wrapper (for a caret the span is empty). -/
theorem wrapSelection_true_eq (t : Textarea) (pre suf : List Char) (h : t.Valid) :
    wrapSelection t (some pre) (some suf) true =
      .ok ({ value := t.value.take t.selectionStart ++ pre
                      ++ (t.value.take t.selectionEnd).drop t.selectionStart ++ suf
                      ++ t.value.drop t.selectionEnd,
             selectionStart := t.selectionStart + pre.length,
             selectionEnd := t.selectionStart + pre.length
               + ((t.value.take t.selectionEnd).drop t.selectionStart).length },
           { newStart := t.selectionStart + pre.length,
             newEnd := t.selectionStart + pre.length
               + ((t.value.take t.selectionEnd).drop t.selectionStart).length,
             modified := true }) := by
  rw [wrapSelection_ok_eq t pre suf true h]
  by_cases hsel : t.selectionStart = t.selectionEnd
  · have hm : ((t.value.take t.selectionEnd).drop t.selectionStart).length = 0 := by
      simp only [List.length_drop, List.length_take]
      omega
    simp [hsel, hm]
  · simp [hsel]

/-- Deleting an exactly-positioned middle block of a concatenation. -/
theorem deleteRange_at (X Y Z : List Char) :
    deleteRange ((X ++ Y) ++ Z) X.length Y.length = X ++ Z := by
  simp [deleteRange, List.take_append_eq_append_take, List.drop_append_eq_append_drop]

/-- `deleteRange_at` with the offset given by an equation, so it can be
applied without rewriting inside the buffer expression. -/
theorem deleteRange_at' (X Y Z : List Char) (i : Nat) (hi : i = X.length) :
    deleteRange ((X ++ Y) ++ Z) i Y.length = X ++ Z := by
  subst hi; exact deleteRange_at X Y Z

/-- Every successful `insertText` reports `modified := true` (the source
returns the literal in both branches). -/
theorem insertText_modified_of_ok (t : Textarea) (txtOpt : Option (List Char)) (si : Bool)
    (t' : Textarea) (r : TextInsertionResult)
    (h : insertText t txtOpt si = .ok (t', r)) : r.modified = true := by
  cases txtOpt with
  | none => simp [insertText] at h
  | some txt =>
    simp only [insertText, runCommit] at h
    split at h
    · exact Except.noConfusion h
    · simp only [Except.ok.injEq, Prod.mk.injEq] at h
      rw [← h.2]

/-! ### The claims -/

/-- Claim C1: for every valid textarea and non-null prefix/suffix,
`wrapSelection` places the resulting caret/selection by three cases in
precedence order: empty original selection → collapsed caret at
`start + length(prefix)`; selected text with `selectWrapped` → selection
`[start + length(prefix), start + length(prefix) + length(selection.text)]`;
selected text without `selectWrapped` → collapsed caret at
`start + length(prefix + selection.text + suffix)`. -/
theorem wrapSelection_caret_placement (t : Textarea) (pre suf : List Char) (sw : Bool)
    (h : t.Valid) :
    wrapSelection t (some pre) (some suf) sw =
      (let selText := (t.value.take t.selectionEnd).drop t.selectionStart
       let ns : Nat :=
         if t.selectionStart = t.selectionEnd then t.selectionStart + pre.length
         else if sw then t.selectionStart + pre.length
         else t.selectionStart + (pre ++ selText ++ suf).length
       let ne : Nat :=
         if t.selectionStart = t.selectionEnd then t.selectionStart + pre.length
         else if sw then t.selectionStart + pre.length + selText.length
         else t.selectionStart + (pre ++ selText ++ suf).length
       .ok ({ value := t.value.take t.selectionStart ++ pre ++ selText ++ suf
                        ++ t.value.drop t.selectionEnd,
              selectionStart := ns, selectionEnd := ne },
            { newStart := ns, newEnd := ne, modified := true })) :=
  wrapSelection_ok_eq t pre suf sw h

/-- Witness for C1 at buffer "Hello World", selection 6–11, wrapping with
two asterisks on each side, `selectWrapped = false`. -/
theorem wrapSelection_caret_placement_witness :
    (Textarea.mk "Hello World".toList 6 11).Valid ∧
    wrapSelection ⟨"Hello World".toList, 6, 11⟩ (some "**".toList) (some "**".toList) false =
      .ok (⟨"Hello **World**".toList, 15, 15⟩, ⟨15, 15, true⟩) :=
  ⟨by decide,
   (wrapSelection_caret_placement ⟨"Hello World".toList, 6, 11⟩ "**".toList "**".toList false
     (by decide)).trans (by decide)⟩

/-- Claim C2: for every valid textarea, `insertText` replaces the selected
span: the new content is `buffer[0:selection.start] + insertText +
buffer[selection.end:]`, with all text outside the selection preserved
verbatim. -/
theorem insertText_replaces_selection (t : Textarea) (txt : List Char) (si : Bool)
    (h : t.Valid) :
    insertText t (some txt) si =
      .ok ({ value := t.value.take t.selectionStart ++ txt ++ t.value.drop t.selectionEnd,
             selectionStart := if si then t.selectionStart else t.selectionStart + txt.length,
             selectionEnd := t.selectionStart + txt.length },
           { newStart := if si then t.selectionStart else t.selectionStart + txt.length,
             newEnd := t.selectionStart + txt.length,
             modified := true }) :=
  insertText_ok_eq t txt si h

/-- Witness for C2 at buffer "Hello World", selection 6–11, inserting "X". -/
theorem insertText_replaces_selection_witness :
    (Textarea.mk "Hello World".toList 6 11).Valid ∧
    insertText ⟨"Hello World".toList, 6, 11⟩ (some "X".toList) false =
      .ok (⟨"Hello X".toList, 7, 7⟩, ⟨7, 7, true⟩) :=
  ⟨by decide,
   (insertText_replaces_selection ⟨"Hello World".toList, 6, 11⟩ "X".toList false
     (by decide)).trans (by decide)⟩

/-- Counterexample to claim C3 as stated: on buffer "Hello World" with
selection 6–11 and `selectWrapped = false`, the final caret is not at 16 —
`length("**World**") = 9`, so the caret lands at `6 + 9 = 15`. -/
theorem wrapSelection_hello_world_caret_not_sixteen :
    ¬ ((wrapSelection ⟨"Hello World".toList, 6, 11⟩ (some "**".toList) (some "**".toList)
          false).toOption.map (fun p => (p.2.newStart, p.2.newEnd)) = some (16, 16)) := by
  decide

/-- Claim C3 (amended): on buffer "Hello World" with selection 6–11 wrapping
with two asterisks each side gives newContent "Hello **World**"; with
`selectWrapped = false` the caret collapses at `6 + length("**World**") = 15`
(not 16), and with `selectWrapped = true` the selection is 8–13. -/
theorem wrapSelection_hello_world_scenario :
    wrapSelection ⟨"Hello World".toList, 6, 11⟩ (some "**".toList) (some "**".toList) false =
      .ok (⟨"Hello **World**".toList, 15, 15⟩, ⟨15, 15, true⟩) ∧
    wrapSelection ⟨"Hello World".toList, 6, 11⟩ (some "**".toList) (some "**".toList) true =
      .ok (⟨"Hello **World**".toList, 8, 13⟩, ⟨8, 13, true⟩) := by
  constructor <;> decide

/-- Claim C4: the wrap round-trips.  Run with `selectWrapped = true`, so the
reported selection delimits the wrapper: the wrap-start is
`newStart - length(prefix)` and the wrap-end is `newEnd + length(suffix)`.
Deleting the `length(suffix)` characters ending at that wrap-end (they begin
at `newEnd`) and the `length(prefix)` characters at the wrap-start restores
the original buffer in full, in particular in the wrapped span. -/
theorem wrapSelection_round_trip (t : Textarea) (pre suf : List Char)
    (t' : Textarea) (r : TextInsertionResult) (h : t.Valid)
    (hw : wrapSelection t (some pre) (some suf) true = .ok (t', r)) :
    deleteRange (deleteRange t'.value r.newEnd suf.length)
      (r.newStart - pre.length) pre.length = t.value := by
  have hse := h.1
  have hs_len : t.selectionStart ≤ t.value.length := le_trans h.1 h.2
  rw [wrapSelection_true_eq t pre suf h] at hw
  simp only [Except.ok.injEq, Prod.mk.injEq] at hw
  obtain ⟨ht', hr⟩ := hw
  subst ht'
  subst hr
  dsimp only
  have hA : (t.value.take t.selectionStart).length = t.selectionStart := by
    simp [List.length_take, Nat.min_eq_left hs_len]
  have hX : t.selectionStart + pre.length
        + ((t.value.take t.selectionEnd).drop t.selectionStart).length
      = ((t.value.take t.selectionStart ++ pre)
          ++ (t.value.take t.selectionEnd).drop t.selectionStart).length := by
    simp [List.length_append, hA]; omega
  rw [deleteRange_at' _ suf _ _ hX]
  rw [List.append_assoc (t.value.take t.selectionStart ++ pre)]
  rw [Nat.add_sub_cancel]
  rw [deleteRange_at' _ pre _ _ hA.symm]
  rw [← List.append_assoc]
  exact take_mid_drop t.value t.selectionStart t.selectionEnd hse

/-- Witness for C4 at buffer "Hello World", selection 6–11, wrapping with
two asterisks each side. -/
theorem wrapSelection_round_trip_witness :
    (Textarea.mk "Hello World".toList 6 11).Valid ∧
    deleteRange (deleteRange ("Hello **World**".toList) 13 2) (8 - 2) 2
      = "Hello World".toList :=
  ⟨by decide,
   wrapSelection_round_trip ⟨"Hello World".toList, 6, 11⟩ "**".toList "**".toList
     ⟨"Hello **World**".toList, 8, 13⟩ ⟨8, 13, true⟩ (by decide) (by decide)⟩

/-- Counterexample to claim C5 as stated: inserting the empty string over the
non-empty selection 6–11 of "Hello World" does not leave the content
unchanged — the selected text is deleted. -/
theorem insertText_empty_deletes_nonempty_selection :
    insertText ⟨"Hello World".toList, 6, 11⟩ (some []) false =
      .ok (⟨"Hello ".toList, 6, 6⟩, ⟨6, 6, true⟩) ∧
    "Hello ".toList ≠ "Hello World".toList := by
  constructor <;> decide

/-- Claim C5 (amended): inserting the empty string produces content
`buffer[0:selection.start] + buffer[selection.end:]` (so the selected span is
deleted; the content is unchanged exactly when the selection is empty) and
always collapses the selection to a caret at `selection.start`. -/
theorem insertText_empty_collapses_to_start (t : Textarea) (h : t.Valid) :
    insertText t (some []) false =
      .ok ({ value := t.value.take t.selectionStart ++ t.value.drop t.selectionEnd,
             selectionStart := t.selectionStart, selectionEnd := t.selectionStart },
           { newStart := t.selectionStart, newEnd := t.selectionStart, modified := true }) ∧
    (t.selectionStart = t.selectionEnd →
      t.value.take t.selectionStart ++ t.value.drop t.selectionEnd = t.value) := by
  constructor
  · have := insertText_ok_eq t [] false h
    simpa using this
  · intro hsel
    rw [hsel, List.take_append_drop]

/-- Witness for C5 at buffer "Hi" with a caret at offset 1. -/
theorem insertText_empty_collapses_to_start_witness :
    (Textarea.mk "Hi".toList 1 1).Valid ∧
    (insertText ⟨"Hi".toList, 1, 1⟩ (some []) false =
      .ok (⟨("Hi".toList).take 1 ++ ("Hi".toList).drop 1, 1, 1⟩, ⟨1, 1, true⟩) ∧
    ((1 : Nat) = 1 → ("Hi".toList).take 1 ++ ("Hi".toList).drop 1 = "Hi".toList)) :=
  ⟨by decide, insertText_empty_collapses_to_start ⟨"Hi".toList, 1, 1⟩ (by decide)⟩

/-- Claim C6: on a valid textarea, a throwing `insertText` or `wrapSelection`
leaves the textarea exactly as it was (every throw happens before the value
assignment), and `setSelection` never touches the buffer content at all —
a failed operation leaves no partial mutation. -/
theorem transform_errors_preserve_state (t : Textarea)
    (txtOpt preOpt sufOpt : Option (List Char)) (si sw : Bool)
    (s : Nat) (eOpt : Option Nat) (msg₁ msg₂ : String) (t₁ t₂ t₃ : Textarea)
    (h : t.Valid) :
    (insertText t txtOpt si = .error (msg₁, t₁) → t₁ = t) ∧
    (wrapSelection t preOpt sufOpt sw = .error (msg₂, t₂) → t₂ = t) ∧
    (setSelection t s eOpt = .ok t₃ → t₃.value = t.value) := by
  refine ⟨?_, ?_, setSelection_value_eq t s eOpt t₃⟩
  · intro he
    cases txtOpt with
    | none =>
      simp only [insertText, Except.error.injEq, Prod.mk.injEq] at he
      exact he.2.symm
    | some txt =>
      rw [insertText_ok_eq t txt si h] at he
      exact Except.noConfusion he
  · intro he
    cases preOpt with
    | none =>
      simp only [wrapSelection, Except.error.injEq, Prod.mk.injEq] at he
      exact he.2.symm
    | some pre =>
      cases sufOpt with
      | none =>
        simp only [wrapSelection, Except.error.injEq, Prod.mk.injEq] at he
        exact he.2.symm
      | some suf =>
        rw [wrapSelection_ok_eq t pre suf sw h] at he
        exact Except.noConfusion he

/-- Witness for C6 at buffer "ab" with selection 0–1 and null arguments. -/
theorem transform_errors_preserve_state_witness :
    (Textarea.mk "ab".toList 0 1).Valid ∧
    ((insertText ⟨"ab".toList, 0, 1⟩ none false =
        .error ("CursorManager.insertText: text is required", ⟨"ab".toList, 0, 1⟩) →
      (⟨"ab".toList, 0, 1⟩ : Textarea) = ⟨"ab".toList, 0, 1⟩) ∧
    (wrapSelection ⟨"ab".toList, 0, 1⟩ none none false =
        .error ("CursorManager.wrapSelection: prefix is required", ⟨"ab".toList, 0, 1⟩) →
      (⟨"ab".toList, 0, 1⟩ : Textarea) = ⟨"ab".toList, 0, 1⟩) ∧
    (setSelection ⟨"ab".toList, 0, 1⟩ 1 none = .ok ⟨"ab".toList, 1, 1⟩ →
      ("ab".toList : List Char) = "ab".toList)) :=
  ⟨by decide,
   transform_errors_preserve_state ⟨"ab".toList, 0, 1⟩ none none none false false 1 none
     "CursorManager.insertText: text is required"
     "CursorManager.wrapSelection: prefix is required"
     ⟨"ab".toList, 0, 1⟩ ⟨"ab".toList, 0, 1⟩ ⟨"ab".toList, 1, 1⟩ (by decide)⟩

/-- Counterexample to claim C7 as stated: `setSelection` has no integrality
check.  The JavaScript number `1.5` is not an integer in `[0, 11]`, so the
claim demands an `InvalidRange` failure, yet the source's checks all pass and
the call goes through to `setSelectionRange`. -/
theorem setSelection_accepts_non_integer_start :
    (setSelectionNum 11 ((3 : ℚ)/2) none).isOk = true ∧
    ¬ (∃ n : ℤ, ((3 : ℚ)/2 = (n : ℚ))) := by
  constructor
  · simp only [setSelectionNum, Option.getD_none]
    norm_num
    rfl
  · rintro ⟨n, hn⟩
    rw [div_eq_iff (by norm_num : (2 : ℚ) ≠ 0)] at hn
    have h3 : (3 : ℤ) = n * 2 := by exact_mod_cast hn
    omega

/-- Claim C7 (amended): `setSelection` with the end argument omitted places a
collapsed caret at `start`; with both arguments it commits the requested
range; and it fails exactly when `start < 0`, `start > length(buffer)`,
`end < 0`, `end < start` or `end > length(buffer)` — there is no integrality
check, so non-integer numeric offsets inside the range are accepted. -/
theorem setSelection_range_contract (t : Textarea) (s e : Nat) (q : ℚ)
    (eOpt : Option ℚ) (hse : s ≤ e) (hel : e ≤ t.value.length) :
    setSelection t s none = .ok { t with selectionStart := s, selectionEnd := s } ∧
    setSelection t s (some e) = .ok { t with selectionStart := s, selectionEnd := e } ∧
    ((setSelectionNum t.value.length q eOpt).isOk = false ↔
      (q < 0 ∨ (t.value.length : ℚ) < q ∨ eOpt.getD q < 0 ∨ eOpt.getD q < q
        ∨ (t.value.length : ℚ) < eOpt.getD q)) := by
  refine ⟨?_, setSelection_ok t s e hse hel, ?_⟩
  · unfold setSelection
    have h1 : ¬ s > t.value.length := by omega
    simp [h1]
  · simp only [setSelectionNum]
    split_ifs with h1 h2 h3 h4 h5
    · exact iff_of_true rfl (Or.inl h1)
    · exact iff_of_true rfl (Or.inr (Or.inl h2))
    · exact iff_of_true rfl (Or.inr (Or.inr (Or.inl h3)))
    · exact iff_of_true rfl (Or.inr (Or.inr (Or.inr (Or.inl h4))))
    · exact iff_of_true rfl (Or.inr (Or.inr (Or.inr (Or.inr h5))))
    · refine iff_of_false (by simp [Except.isOk, Except.toBool]) ?_
      rintro (hc | hc | hc | hc | hc)
      exacts [h1 hc, h2 hc, h3 hc, h4 hc, h5 hc]

/-- Witness for C7 at buffer "abc", offsets 1 and 2, and the number 1 with no
end argument on the numeric side. -/
theorem setSelection_range_contract_witness :
    ((1 : Nat) ≤ 2 ∧ (2 : Nat) ≤ ("abc".toList : List Char).length) ∧
    (setSelection ⟨"abc".toList, 0, 0⟩ 1 none = .ok ⟨"abc".toList, 1, 1⟩ ∧
    setSelection ⟨"abc".toList, 0, 0⟩ 1 (some 2) = .ok ⟨"abc".toList, 1, 2⟩ ∧
    ((setSelectionNum ("abc".toList : List Char).length (1 : ℚ) none).isOk = false ↔
      ((1 : ℚ) < 0 ∨ (("abc".toList : List Char).length : ℚ) < 1
        ∨ (none : Option ℚ).getD 1 < 0 ∨ (none : Option ℚ).getD 1 < 1
        ∨ (("abc".toList : List Char).length : ℚ) < (none : Option ℚ).getD 1))) :=
  ⟨⟨by decide, by decide⟩,
   setSelection_range_contract ⟨"abc".toList, 0, 0⟩ 1 2 1 none (by decide) (by decide)⟩

/-- Claim C8: `insertText` fails with the invalid-argument error exactly for a
null/undefined text (never for the empty string), and `wrapSelection` fails
for a null/undefined prefix or suffix, while empty-string prefix and suffix
are accepted and degenerate to plain reinsertion (the buffer is unchanged). -/
theorem null_and_empty_argument_contract (t : Textarea) (si sw : Bool)
    (sufOpt : Option (List Char)) (pre : List Char) (h : t.Valid) :
    insertText t none si = .error ("CursorManager.insertText: text is required", t) ∧
    (insertText t (some []) si).isOk = true ∧
    wrapSelection t none sufOpt sw =
      .error ("CursorManager.wrapSelection: prefix is required", t) ∧
    wrapSelection t (some pre) none sw =
      .error ("CursorManager.wrapSelection: suffix is required", t) ∧
    (wrapSelection t (some []) (some []) sw).toOption.map (fun p => p.1.value)
      = some t.value := by
  refine ⟨rfl, ?_, rfl, rfl, ?_⟩
  · rw [insertText_ok_eq t [] si h]
    rfl
  · rw [wrapSelection_ok_eq t [] [] sw h]
    simp only [Except.toOption, Option.map, Option.some.injEq, List.nil_append,
      List.append_nil]
    exact take_mid_drop t.value t.selectionStart t.selectionEnd h.1

/-- Witness for C8 at buffer "ab" with selection 0–1. -/
theorem null_and_empty_argument_contract_witness :
    (Textarea.mk "ab".toList 0 1).Valid ∧
    (insertText ⟨"ab".toList, 0, 1⟩ none false =
      .error ("CursorManager.insertText: text is required", ⟨"ab".toList, 0, 1⟩) ∧
    (insertText ⟨"ab".toList, 0, 1⟩ (some []) false).isOk = true ∧
    wrapSelection ⟨"ab".toList, 0, 1⟩ none (some "x".toList) false =
      .error ("CursorManager.wrapSelection: prefix is required", ⟨"ab".toList, 0, 1⟩) ∧
    wrapSelection ⟨"ab".toList, 0, 1⟩ (some "p".toList) none false =
      .error ("CursorManager.wrapSelection: suffix is required", ⟨"ab".toList, 0, 1⟩) ∧
    (wrapSelection ⟨"ab".toList, 0, 1⟩ (some []) (some []) false).toOption.map
      (fun p => p.1.value) = some ("ab".toList)) :=
  ⟨by decide,
   null_and_empty_argument_contract ⟨"ab".toList, 0, 1⟩ false false (some "x".toList)
     "p".toList (by decide)⟩

/-- Claim C9 (spec-modelled codec): parsing "Check [[Aragorn|Hero#appearance]]
today" yields exactly one wiki-link match, with target "Aragorn", display
"Hero", section "appearance" and raw "[[Aragorn|Hero#appearance]]" (spanning
offsets 6–33). -/
theorem wikiParse_aragorn_scenario :
    wikiParse "Check [[Aragorn|Hero#appearance]] today".toList =
      [({ target := "Aragorn".toList, display := "Hero".toList,
          «section» := some "appearance".toList,
          raw := "[[Aragorn|Hero#appearance]]".toList }, 6, 33)] := by
  decide

/-- Claim C10: every completed `insertText` (and therefore `replaceSelection`)
reports `modified = true`, including an empty-string insert at a caret, where
the buffer content is in fact unchanged. -/
theorem insertText_always_reports_modified (t : Textarea)
    (txtOpt rep : Option (List Char)) (si : Bool)
    (t' t'' : Textarea) (r r' : TextInsertionResult) :
    (insertText t txtOpt si = .ok (t', r) → r.modified = true) ∧
    (replaceSelection t rep = .ok (t'', r') → r'.modified = true) ∧
    (t.Valid → t.selectionStart = t.selectionEnd →
      (insertText t (some []) false).toOption.map (fun p => (p.1.value, p.2.modified))
        = some (t.value, true)) := by
  refine ⟨insertText_modified_of_ok t txtOpt si t' r, ?_, ?_⟩
  · exact insertText_modified_of_ok t rep false t'' r'
  · intro hv hsel
    rw [insertText_ok_eq t [] false hv]
    simp only [Except.toOption, Option.map, Option.some.injEq, List.append_nil,
      List.nil_append, List.length_nil, Nat.add_zero, Prod.mk.injEq]
    refine ⟨?_, trivial⟩
    rw [hsel, List.take_append_drop]

/-- Witness for C10 at buffer "ab" with a caret at offset 1, inserting "x"
(and replacing with "y"). -/
theorem insertText_always_reports_modified_witness :
    (insertText ⟨"ab".toList, 1, 1⟩ (some "x".toList) false =
        .ok (⟨"axb".toList, 2, 2⟩, ⟨2, 2, true⟩) →
      (TextInsertionResult.mk 2 2 true).modified = true) ∧
    (replaceSelection ⟨"ab".toList, 1, 1⟩ (some "y".toList) =
        .ok (⟨"ayb".toList, 2, 2⟩, ⟨2, 2, true⟩) →
      (TextInsertionResult.mk 2 2 true).modified = true) ∧
    ((Textarea.mk "ab".toList 1 1).Valid → (1 : Nat) = 1 →
      (insertText ⟨"ab".toList, 1, 1⟩ (some []) false).toOption.map
        (fun p => (p.1.value, p.2.modified)) = some ("ab".toList, true)) :=
  insertText_always_reports_modified ⟨"ab".toList, 1, 1⟩ (some "x".toList)
    (some "y".toList) false ⟨"axb".toList, 2, 2⟩ ⟨"ayb".toList, 2, 2⟩
    ⟨2, 2, true⟩ ⟨2, 2, true⟩

end WikiWeave
